import Mathlib

/-!
Verification of `batch_resize_icon.py` (vampire-locker/xcode-icon-generator).

The script is a single-pass pipeline: validate a source image, resolve an
output directory, normalize the source, write 13 resized PNGs, write a
Contents.json manifest.  We embed it shallowly: filesystem and image-codec
effects become oracles carried in a configuration record, and each phase
returns the list of side-effect events it performs together with its
`Except` result (a raised Python exception becomes `Except.error`).
-/

namespace BatchResizeIcon

/-- Path components of a resolved absolute directory path. -/
abbrev PathC := List String

/-- Python exceptions raised by the script, by class, with their message. -/
inductive PyError where
  /-- Python class FileNotFoundError -/
  | fileNotFoundError (msg : String)
  /-- Python class ValueError -/
  | valueError (msg : String)
  /-- Python class IOError / OSError -/
  | ioError (msg : String)
  /-- an exception raised inside PIL (e.g. `UnidentifiedImageError`) -/
  | pilError (msg : String)
deriving DecidableEq, Repr

/-- The message text of an exception (Python `str(e)`). -/
def PyError.msg : PyError → String
  | .fileNotFoundError m => m
  | .valueError m => m
  | .ioError m => m
  | .pilError m => m

/-- Header data PIL reports for a successfully opened image. -/
structure ImageInfo where
  width : Nat
  height : Nat
  /-- PIL color mode string, e.g. "RGBA", "RGB", "P" -/
  mode : String
deriving DecidableEq, Repr

/-- An in-memory PIL image.  `resampled` records whether the pixel data was
produced by a `resize(..., LANCZOS)` call (it is not a PIL attribute; we carry
it to distinguish a genuinely resampled raster from a reused one). -/
structure PImage where
  width : Nat
  height : Nat
  mode : String
  resampled : Bool
deriving DecidableEq, Repr

/-- The image object `Image.open` yields for the given header data. -/
def openImage (i : ImageInfo) : PImage :=
  { width := i.width, height := i.height, mode := i.mode, resampled := false }

/-- Conversion to RGBA when needed: the code converts whenever img.mode
differs from RGBA. -/
def convertRGBA (img : PImage) : PImage :=
  if img.mode = "RGBA" then img else { img with mode := "RGBA" }

/-- Resampling call img.resize((w, h), Image.Resampling.LANCZOS). -/
def pilResize (img : PImage) (w h : Nat) : PImage :=
  { width := w, height := h, mode := img.mode, resampled := true }

/-- The source file as the filesystem presents it to the script: the oracle
answers for `exists()`, `is_file()`, the (lowercased) `suffix`, and what
`Image.open` does (header data, or the PIL exception message). -/
structure SourceFile where
  /-- display string of the resolved path, used in error messages -/
  path : String
  /-- components of the parent directory of the resolved path -/
  parent : PathC
  fexists : Bool
  isFile : Bool
  /-- lowercased extension, source_path.suffix.lower() -/
  suffix : String
  decode : Except String ImageInfo

/-- The fixed ICON_SIZES list of the class. -/
def ICON_SIZES : List Nat := [20, 29, 40, 58, 60, 76, 80, 87, 120, 152, 167, 180, 1024]

/-- The SUPPORTED_FORMATS set: .png, .jpg and .jpeg (as a list). -/
def SUPPORTED_FORMATS : List String := [".png", ".jpg", ".jpeg"]

/-- The required SOURCE_SIZE, 1024. -/
def SOURCE_SIZE : Nat := 1024

/-- Content of a file the script writes.  `manifest` stands for
`CONTENTS_JSON_TEMPLATE`, imported from `xcode_contents_json` (that module is
not part of the analysed source; per the spec it is a fixed, non-parameterized
verbatim template, so we keep it opaque).  `blob` models a pre-existing
content of a pre-existing unrelated file. -/
inductive FileContent where
  | png (img : PImage)
  | manifest
  | blob (s : String)
deriving DecidableEq, Repr

/-- Side effects the script performs, in order.  All `writeFile` events target
the resolved output directory, so file names are relative to it. -/
inductive Event where
  /-- a successful Image.open on the source path (the file is read) -/
  | openSource
  /-- the image object being closed (the `with` block exit, or `.close()`) -/
  | closeSource
  /-- the mkdir call on the output path, with parents and exist_ok set -/
  | mkdirOut (p : PathC)
  /-- a successful `save` / `open(...).write(...)` into the output directory -/
  | writeFile (name : String) (c : FileContent)
deriving DecidableEq, Repr

/- ===== error messages (f-strings of `_validate_input` et al.) ===== -/

def msgNotFound (path : String) : String :=
  "Source image not found: " ++ path

def msgNotAFile (path : String) : String :=
  "Path is not a file: " ++ path

def msgUnsupported (suffix : String) : String :=
  "Unsupported format: " ++ suffix ++ ". Supported formats: .png, .jpg, .jpeg"

def msgNotSquare (w h : Nat) : String :=
  "Image must be square. Current size: " ++ toString w ++ "x" ++ toString h

def msgTooSmall (w h : Nat) : String :=
  "Image size is " ++ toString w ++ "x" ++ toString h ++
  ", which is smaller than required 1024x1024. " ++
  "Upscaling small images will result in blurry icons and may fail App Store review. " ++
  "Please use a high-quality source image of at least 1024x1024."

def msgTooLarge (w h : Nat) : String :=
  "Image size is " ++ toString w ++ "x" ++ toString h ++
  ", larger than required 1024x1024. " ++
  "Use --auto-scale to automatically downscale to 1024x1024."

/-- prefix prepended by `raise ValueError(f"Failed to open image: ...")` -/
def msgOpenFailure (inner : String) : String :=
  "Failed to open image: " ++ inner

def msgCannotUpscale (w h : Nat) : String :=
  "Cannot upscale image from " ++ toString w ++ "x" ++ toString h ++
  " to 1024x1024. Upscaling will result in blurry icons."

/-- Body of the `with Image.open(...)` block of `_validate_input`: the square
check and the size-policy check on the opened image (the transparency check
only logs and raises nothing).  Raised errors are `ValueError`s; they are
re-wrapped by the enclosing `except` (see `validateInputTr`). -/
def sizeChecks (autoScale : Bool) (img : ImageInfo) : Except PyError Unit :=
  if img.width ≠ img.height then
    .error (.valueError (msgNotSquare img.width img.height))
  else if img.width ≠ SOURCE_SIZE then
    if img.width < SOURCE_SIZE then
      .error (.valueError (msgTooSmall img.width img.height))
    else
      if autoScale then .ok () else
        .error (.valueError (msgTooLarge img.width img.height))
  else .ok ()

/-- Embedding of IconResizer._validate_input, with the events it performs.
The existence, regular-file and suffix checks raise unwrapped; the try around
the with-block catches any exception raised inside it — a decode failure, but
also the square/size ValueError raised by the check itself — and re-raises a
ValueError labelled Failed-to-open-image.  When Image.open succeeds, the
with-block closes the image on exit even when a check raised. -/
def validateInputTr (autoScale : Bool) (f : SourceFile) :
    List Event × Except PyError Unit :=
  if f.fexists = false then
    ([], .error (.fileNotFoundError (msgNotFound f.path)))
  else if f.isFile = false then
    ([], .error (.valueError (msgNotAFile f.path)))
  else if f.suffix ∉ SUPPORTED_FORMATS then
    ([], .error (.valueError (msgUnsupported f.suffix)))
  else
    match f.decode with
    | .error m => ([], .error (.valueError (msgOpenFailure m)))
    | .ok img =>
      ([.openSource, .closeSource],
        match sizeChecks autoScale img with
        | .ok () => .ok ()
        | .error e => .error (.valueError (msgOpenFailure e.msg)))

/-- Whether an `Except` result succeeded. -/
def isOk {ε α : Type} : Except ε α → Bool
  | .ok _ => true
  | .error _ => false

/-- A convenient standard input: a square `.png` source file of edge `w`
that exists, is a regular file and decodes cleanly. -/
def squareFile (w : Nat) : SourceFile :=
  { path := "/home/user/icon.png"
    parent := ["home", "user"]
    fexists := true
    isFile := true
    suffix := ".png"
    decode := .ok { width := w, height := w, mode := "RGBA" } }

/-- Default directory name: AppIcon.appiconset_ followed by the whole-second
epoch timestamp int(time.time()). -/
def dirNameDefault (t : Nat) : String := "AppIcon.appiconset_" ++ toString t

/-- Resolution of a (relative, single-component) directory name d, as
Path(d).resolve() does: it anchors the name at the working directory. -/
def resolveIn (cwd : PathC) (d : String) : PathC := cwd ++ [d]

/-- The output path `_set_output_directory` computes: the explicit directory
resolved against the working directory when given, otherwise
`self.source_path.parent / dir_name` with the timestamped default name. -/
def resolveOutputPath (cwd : PathC) (outputDir : Option String)
    (f : SourceFile) (t : Nat) : PathC :=
  match outputDir with
  | some d => resolveIn cwd d
  | none => f.parent ++ [dirNameDefault t]

/-- Embedding of IconResizer._set_output_directory: compute the output path, then
run mkdir with parents and exist_ok set; a failing mkdir raises an IOError
labelled Failed-to-create-output-directory.  The flag mkdirOk is the
filesystem oracle for whether the mkdir call succeeds. -/
def setOutputDirectoryTr (cwd : PathC) (outputDir : Option String)
    (f : SourceFile) (t : Nat) (mkdirOk : Bool) :
    List Event × Except PyError PathC :=
  let out := resolveOutputPath cwd outputDir f t
  if mkdirOk then ([.mkdirOut out], .ok out)
  else ([], .error (.ioError "Failed to create output directory"))

/-- Embedding of the IconResizer constructor: store the arguments, run
validation, then set the output directory.  A validation error propagates
before the output directory is touched. -/
def initTr (cwd : PathC) (outputDir : Option String) (autoScale : Bool)
    (f : SourceFile) (t : Nat) (mkdirOk : Bool) :
    List Event × Except PyError PathC :=
  match validateInputTr autoScale f with
  | (evs, .error e) => (evs, .error e)
  | (evs, .ok _) =>
    let s := setOutputDirectoryTr cwd outputDir f t mkdirOk
    (evs ++ s.1, s.2)

/-- Embedding of IconResizer._prepare_source_image: Image.open (a failure
here propagates raw, unwrapped), convert to RGBA if needed; then, only when
the edge differs from SOURCE_SIZE and auto_scale is set, downscale with
LANCZOS when larger or raise the defensive upscale ValueError otherwise.
The returned image stays open; generate_icons closes it later. -/
def prepareSourceImageTr (autoScale : Bool) (f : SourceFile) :
    List Event × Except PyError PImage :=
  match f.decode with
  | .error m => ([], .error (.pilError m))
  | .ok i =>
    let img := convertRGBA (openImage i)
    if img.width ≠ SOURCE_SIZE ∧ autoScale = true then
      if SOURCE_SIZE < img.width then
        ([.openSource], .ok (pilResize img SOURCE_SIZE SOURCE_SIZE))
      else
        ([.openSource], .error (.valueError (msgCannotUpscale img.width img.height)))
    else ([.openSource], .ok img)

/-- Output filename: an underscore, the size, then the .png extension. -/
def fname (size : Nat) : String := "_" ++ toString size ++ ".png"

/-- One loop body of `generate_icons`: reuse the source image when
`size == SOURCE_SIZE`, otherwise resize it. -/
def resizeFor (src : PImage) (size : Nat) : PImage :=
  if size = SOURCE_SIZE then src else pilResize src size size

/-- The `for size in self.ICON_SIZES` loop of `generate_icons`: each
iteration resizes (or reuses) and saves inside a `try` whose `except` only
logs, so a failing size (oracle `saveFails`) contributes no write and no
increment and the loop continues; after the loop `source_img.close()` runs
and the count is reported.  The whole method raises nothing past `prepare`. -/
def genStep (src : PImage) (saveFails : Nat → Bool)
    (acc : List Event × Nat) (size : Nat) : List Event × Nat :=
  if saveFails size then acc
  else (acc.1 ++ [.writeFile (fname size) (.png (resizeFor src size))],
        acc.2 + 1)

/-- The `for size in self.ICON_SIZES` loop followed by `source_img.close()`:
fold `genStep` over the size list, then close the source image. -/
def generateIconsLoopTr (src : PImage) (saveFails : Nat → Bool) :
    List Event × Nat :=
  let r := ICON_SIZES.foldl (genStep src saveFails) ([], 0)
  (r.1 ++ [.closeSource], r.2)

/-- Embedding of IconResizer.generate_icons: prepare the source image, then
run the per-size loop.  Returns the generated_count the final report logs. -/
def generateIconsTr (autoScale : Bool) (f : SourceFile)
    (saveFails : Nat → Bool) : List Event × Except PyError Nat :=
  match prepareSourceImageTr autoScale f with
  | (evs, .error e) => (evs, .error e)
  | (evs, .ok src) =>
    let g := generateIconsLoopTr src saveFails
    (evs ++ g.1, .ok g.2)

/-- Embedding of IconResizer.generate_contents_json: write the manifest
template to Contents.json; on failure (the manifestErr oracle) log and
re-raise the same exception. -/
def generateContentsJsonTr (manifestErr : Option PyError) :
    List Event × Except PyError Unit :=
  match manifestErr with
  | none => ([.writeFile "Contents.json" .manifest], .ok ())
  | some e => ([], .error e)

/-- Embedding of IconResizer.run: generate_icons then generate_contents_json;
the except clause only logs and re-raises. -/
def runTr (autoScale : Bool) (f : SourceFile) (saveFails : Nat → Bool)
    (manifestErr : Option PyError) : List Event × Except PyError Nat :=
  match generateIconsTr autoScale f saveFails with
  | (evs, .error e) => (evs, .error e)
  | (evs, .ok n) =>
    match generateContentsJsonTr manifestErr with
    | (evs2, .ok _) => (evs ++ evs2, .ok n)
    | (evs2, .error e) => (evs ++ evs2, .error e)

/-- Everything a run of the tool depends on: the arguments and the
filesystem / codec oracles. -/
structure Cfg where
  cwd : PathC
  outputDir : Option String
  autoScale : Bool
  f : SourceFile
  /-- the whole-second epoch time read in _set_output_directory -/
  t : Nat
  mkdirOk : Bool
  saveFails : Nat → Bool
  manifestErr : Option PyError

/-- The whole tool run `main` drives: `IconResizer(...)` (validate + set
output directory) then `resizer.run()`. -/
def pipelineTr (c : Cfg) : List Event × Except PyError Nat :=
  match initTr c.cwd c.outputDir c.autoScale c.f c.t c.mkdirOk with
  | (evs, .error e) => (evs, .error e)
  | (evs, .ok _) =>
    let r := runTr c.autoScale c.f c.saveFails c.manifestErr
    (evs ++ r.1, r.2)

/-- Exit code of main: 0 when the run returned, 1 when any exception
escaped (the `KeyboardInterrupt` to 130 path is outside this model, as no
interrupt oracle is modelled). -/
def mainExit (c : Cfg) : Nat :=
  match (pipelineTr c).2 with
  | .ok _ => 0
  | .error _ => 1

/- ===== filesystem application of an event trace (for idempotence) ===== -/

/-- Contents of the output directory: an ordered association of file names to
contents (names are unique in any state reachable from a real directory). -/
abbrev FS := List (String × FileContent)

/-- Writing a file: overwrite in place when the name exists, append otherwise
(how a directory listing behaves under `save` / `open(..., "w")`). -/
def writeFs : FS → String → FileContent → FS
  | [], n, c => [(n, c)]
  | p :: rest, n, c =>
    if p.1 = n then (n, c) :: rest else p :: writeFs rest n c

/-- Effect of one event on the contents of the output directory. -/
def applyEvent (fs : FS) : Event → FS
  | .writeFile n c => writeFs fs n c
  | _ => fs

/-- Effect of a trace on the contents of the output directory. -/
def applyEvents (fs : FS) : List Event → FS
  | [] => fs
  | e :: evs => applyEvents (applyEvent fs e) evs

/-- The content a name holds in the directory (first match). -/
def lookupFs : FS → String → Option FileContent
  | [], _ => none
  | p :: rest, n => if p.1 = n then some p.2 else lookupFs rest n

/-- The names a trace writes. -/
def writeNames (evs : List Event) : List String :=
  evs.filterMap (fun e => match e with
    | .writeFile n _ => some n
    | _ => none)

/-- The content of the chronologically last write of `n` in a trace. -/
def lastWrite (evs : List Event) (n : String) : Option FileContent :=
  match evs with
  | [] => none
  | e :: rest =>
    match lastWrite rest n with
    | some c => some c
    | none =>
      match e with
      | .writeFile m c => if m = n then some c else none
      | _ => none

/-- The PNG files a trace writes, in order, with their image contents. -/
def pngWrites (evs : List Event) : List (String × PImage) :=
  evs.filterMap (fun e => match e with
    | .writeFile n (.png img) => some (n, img)
    | _ => none)

/-- A source file that exists and has a supported suffix but whose bytes PIL
cannot decode (`Image.open` raises). -/
def decodeFailFile : SourceFile :=
  { path := "/home/user/icon.png"
    parent := ["home", "user"]
    fexists := true
    isFile := true
    suffix := ".png"
    decode := .error "cannot identify image file" }

/-- A source file that decodes to a non-square 1000x800 image. -/
def notSquareFile : SourceFile :=
  { path := "/home/user/icon.png"
    parent := ["home", "user"]
    fexists := true
    isFile := true
    suffix := ".png"
    decode := .ok { width := 1000, height := 800, mode := "RGBA" } }

/-- A fully successful concrete run: valid 1024-pixel source, explicit output
directory, every size saves, the manifest writes. -/
def cfgGood : Cfg :=
  { cwd := ["tmp"]
    outputDir := some "MyIcon.appiconset"
    autoScale := false
    f := squareFile 1024
    t := 0
    mkdirOk := true
    saveFails := fun _ => false
    manifestErr := none }

/-- The prepared in-memory image of the source used by cfgGood. -/
def srcGood : PImage :=
  { width := 1024, height := 1024, mode := "RGBA", resampled := false }

/-- Variant of cfgGood with an undersized (512-pixel) source: validation
fails. -/
def cfgBad : Cfg := { cfgGood with f := squareFile 512 }

/-- Variant of cfgGood with a failing Contents.json write. -/
def cfgManifestFail : Cfg :=
  { cfgGood with manifestErr := some (.ioError "No space left on device") }

/- ===== C1: the four-case size policy of `_validate_input` ===== -/

/-- C1: for every square source image that exists, is a regular file, has a
supported suffix and decodes, validation passes exactly when the edge equals
1024, or exceeds 1024 with auto-scale enabled; equivalently, an edge below
1024 fails for both flag values, an edge above 1024 fails without auto-scale
and passes with it, and an edge of exactly 1024 passes for both flag values. -/
theorem c1_size_policy (a : Bool) (f : SourceFile) (img : ImageInfo)
    (hex : f.fexists = true) (hfi : f.isFile = true)
    (hfmt : f.suffix ∈ SUPPORTED_FORMATS)
    (hdec : f.decode = .ok img) (hsq : img.width = img.height) :
    isOk (validateInputTr a f).2 = true ↔
      (img.width = SOURCE_SIZE ∨ (SOURCE_SIZE < img.width ∧ a = true)) := by
  simp only [validateInputTr, hex, hfi, hdec, Bool.true_eq_false, if_false, hfmt,
    not_true_eq_false, sizeChecks, ← hsq, ne_eq, not_false_eq_true]
  rcases Nat.lt_trichotomy img.width SOURCE_SIZE with h | h | h
  · have h1 : img.width ≠ SOURCE_SIZE := Nat.ne_of_lt h
    simp [h1, h, isOk]
    omega
  · simp [h, isOk]
  · have h1 : img.width ≠ SOURCE_SIZE := Nat.ne_of_gt h
    have h2 : ¬ img.width < SOURCE_SIZE := Nat.not_lt.mpr (Nat.le_of_lt h)
    cases a <;> simp [h1, h2, h, isOk]

/-- C1 witness: a square 512-pixel source fails validation (here with
auto-scale disabled), instantiating the policy at a concrete input. -/
theorem c1_size_policy_witness :
    isOk (validateInputTr false (squareFile 512)).2 = true ↔
      (512 = SOURCE_SIZE ∨ (SOURCE_SIZE < 512 ∧ false = true)) :=
  c1_size_policy false (squareFile 512)
    { width := 512, height := 512, mode := "RGBA" }
    rfl rfl (by simp [squareFile, SUPPORTED_FORMATS]) rfl rfl

/- ===== C4: the error taxonomy of `_validate_input` ===== -/

/-- C4: evaluating `_validate_input` at concrete failing inputs shows the
square/size checks are not raised as distinct errors: the `try` around the
with-block catches the ValueError raised by the check itself and re-raises it as
`ValueError("Failed to open image: ...")`, the exact class and label a decode
failure produces — so NotSquare, TooSmall and TooLargeWithoutAutoScale present
identically to DecodeFailure (the dimensions survive only inside the wrapped
message text). -/
theorem c4_size_errors_presented_as_open_failure :
    (validateInputTr false (squareFile 512)).2
      = .error (.valueError (msgOpenFailure (msgTooSmall 512 512)))
    ∧ (validateInputTr false notSquareFile).2
      = .error (.valueError (msgOpenFailure (msgNotSquare 1000 800)))
    ∧ (validateInputTr false (squareFile 2048)).2
      = .error (.valueError (msgOpenFailure (msgTooLarge 2048 2048)))
    ∧ (validateInputTr false decodeFailFile).2
      = .error (.valueError (msgOpenFailure "cannot identify image file")) :=
  ⟨rfl, rfl, rfl, rfl⟩

/- ===== C5: the defensive upscale guard of `_prepare_source_image` ===== -/

/-- The RGBA conversion does not change the width. -/
theorem convertRGBA_width (img : PImage) : (convertRGBA img).width = img.width := by
  unfold convertRGBA; split <;> rfl

/-- The RGBA conversion does not change the height. -/
theorem convertRGBA_height (img : PImage) : (convertRGBA img).height = img.height := by
  unfold convertRGBA; split <;> rfl

/-- C5 counterexample: with auto-scale disabled, a 512-pixel source passes
through `_prepare_source_image` silently (the guard
`if img.size[0] != SOURCE_SIZE and self.auto_scale` never fires when
`auto_scale` is false), refuting that an undersized input fails loudly
regardless of the flag. -/
theorem c5_counterexample_silent_when_no_autoscale :
    (prepareSourceImageTr false (squareFile 512)).2
      = .ok { width := 512, height := 512, mode := "RGBA", resampled := false } :=
  rfl

/-- C5 amended: for an input decoding below the canonical 1024, the defensive
upscale guard raises only when auto-scale is enabled; with auto-scale disabled
the undersized image is returned unchanged (apart from RGBA conversion) with
no error and no upscaling. -/
theorem c5_upscale_guard_needs_autoscale (f : SourceFile) (img : ImageInfo)
    (hdec : f.decode = .ok img) (hw : img.width < SOURCE_SIZE) :
    (prepareSourceImageTr true f).2
      = .error (.valueError (msgCannotUpscale img.width img.height))
    ∧ (prepareSourceImageTr false f).2 = .ok (convertRGBA (openImage img)) := by
  have hwi : (convertRGBA (openImage img)).width = img.width := by
    rw [convertRGBA_width]; rfl
  have hhi : (convertRGBA (openImage img)).height = img.height := by
    rw [convertRGBA_height]; rfl
  have hne : (convertRGBA (openImage img)).width ≠ SOURCE_SIZE := by
    rw [hwi]; exact Nat.ne_of_lt hw
  have hnl : ¬ SOURCE_SIZE < (convertRGBA (openImage img)).width := by
    rw [hwi]; omega
  have h1 : img.width ≠ SOURCE_SIZE := Nat.ne_of_lt hw
  have h2 : ¬ SOURCE_SIZE < img.width := by omega
  constructor
  · simp [prepareSourceImageTr, hdec, hne, hnl, hwi, hhi, h1, h2]
  · simp [prepareSourceImageTr, hdec]

/-- C5 witness: the amended guard behavior at a concrete 512-pixel input. -/
theorem c5_upscale_guard_needs_autoscale_witness :
    (prepareSourceImageTr true (squareFile 512)).2
      = .error (.valueError (msgCannotUpscale 512 512))
    ∧ (prepareSourceImageTr false (squareFile 512)).2
      = .ok (convertRGBA (openImage { width := 512, height := 512, mode := "RGBA" })) :=
  c5_upscale_guard_needs_autoscale (squareFile 512)
    { width := 512, height := 512, mode := "RGBA" } rfl (by decide)

/- ===== C10: default output directory location ===== -/

/-- C10: with no explicit output directory, `_set_output_directory` places
`AppIcon.appiconset_t` (t the epoch-seconds timestamp) inside the parent
directory of the resolved source path: the computed path is
`source.parent / name`, independent of the working directory, differs from the
working-directory placement whenever the working directory is not the parent
of the source, and the mkdir targets exactly that path. -/
theorem c10_default_output_next_to_source (cwd cwd2 : PathC) (f : SourceFile)
    (t : Nat) (hne : cwd ≠ f.parent) :
    resolveOutputPath cwd none f t = f.parent ++ [dirNameDefault t]
    ∧ resolveOutputPath cwd none f t = resolveOutputPath cwd2 none f t
    ∧ resolveOutputPath cwd none f t ≠ resolveIn cwd (dirNameDefault t)
    ∧ (setOutputDirectoryTr cwd none f t true).1
        = [Event.mkdirOut (f.parent ++ [dirNameDefault t])]
    ∧ dirNameDefault t = "AppIcon.appiconset_" ++ toString t := by
  refine ⟨rfl, rfl, ?_, rfl, rfl⟩
  intro h
  exact hne (List.append_cancel_right h.symm)

/-- C10 witness: the default location at a concrete source, timestamp and
working directory distinct from the parent of the source. -/
theorem c10_default_output_next_to_source_witness :
    resolveOutputPath ["tmp"] none (squareFile 1024) 99
        = (squareFile 1024).parent ++ [dirNameDefault 99]
    ∧ resolveOutputPath ["tmp"] none (squareFile 1024) 99
        = resolveOutputPath ["var"] none (squareFile 1024) 99
    ∧ resolveOutputPath ["tmp"] none (squareFile 1024) 99
        ≠ resolveIn ["tmp"] (dirNameDefault 99)
    ∧ (setOutputDirectoryTr ["tmp"] none (squareFile 1024) 99 true).1
        = [Event.mkdirOut ((squareFile 1024).parent ++ [dirNameDefault 99])]
    ∧ dirNameDefault 99 = "AppIcon.appiconset_" ++ toString 99 :=
  c10_default_output_next_to_source ["tmp"] ["var"] (squareFile 1024) 99
    (by simp [squareFile])

/- ===== structural lemmas about the phases and the pipeline ===== -/

/-- Opening keeps the header width. -/
theorem openImage_width (i : ImageInfo) : (openImage i).width = i.width := rfl

/-- Opening keeps the header height. -/
theorem openImage_height (i : ImageInfo) : (openImage i).height = i.height := rfl

/-- Validation performs either no event or one transient open/close. -/
theorem validate_events_cases (a : Bool) (f : SourceFile) :
    (validateInputTr a f).1 = []
    ∨ (validateInputTr a f).1 = [Event.openSource, Event.closeSource] := by
  by_cases h1 : f.fexists = false
  · left; simp [validateInputTr, h1]
  by_cases h2 : f.isFile = false
  · left; simp [validateInputTr, h1, h2]
  by_cases h3 : f.suffix ∉ SUPPORTED_FORMATS
  · left; simp [validateInputTr, h1, h2, h3]
  cases hd : f.decode with
  | error m => left; simp [validateInputTr, h1, h2, h3, hd]
  | ok img => right; simp [validateInputTr, h1, h2, h3, hd]

/-- Validation writes nothing and creates no directory. -/
theorem validate_events_no_output (a : Bool) (f : SourceFile) :
    ∀ e ∈ (validateInputTr a f).1,
      (∀ p, e ≠ Event.mkdirOut p) ∧ ∀ n c0, e ≠ Event.writeFile n c0 := by
  intro e he
  rcases validate_events_cases a f with h | h <;> rw [h] at he
  · cases he
  · simp only [List.mem_cons, List.not_mem_nil, or_false] at he
    rcases he with rfl | rfl
    · exact ⟨(fun p h2 => by cases h2), (fun n c0 h2 => by cases h2)⟩
    · exact ⟨(fun p h2 => by cases h2), (fun n c0 h2 => by cases h2)⟩

/-- When validation succeeds, the events are the transient open/close and the
decoded image obeys the size policy. -/
theorem validate_ok_inv (a : Bool) (f : SourceFile)
    (h : isOk (validateInputTr a f).2 = true) :
    (validateInputTr a f).1 = [Event.openSource, Event.closeSource]
    ∧ ∃ img, f.decode = .ok img ∧ img.width = img.height
      ∧ (img.width = SOURCE_SIZE ∨ (SOURCE_SIZE < img.width ∧ a = true)) := by
  by_cases h1 : f.fexists = false
  · simp [validateInputTr, h1, isOk] at h
  by_cases h2 : f.isFile = false
  · simp [validateInputTr, h1, h2, isOk] at h
  by_cases h3 : f.suffix ∉ SUPPORTED_FORMATS
  · simp [validateInputTr, h1, h2, h3, isOk] at h
  cases hd : f.decode with
  | error m => simp [validateInputTr, h1, h2, h3, hd, isOk] at h
  | ok img =>
    have hsz : isOk (sizeChecks a img) = true := by
      rw [validateInputTr] at h
      simp only [h1, h2, h3, hd, if_false, if_neg, not_false_eq_true] at h
      cases hs : sizeChecks a img with
      | ok u => rfl
      | error e => rw [hs] at h; simp [isOk] at h
    refine ⟨by simp [validateInputTr, h1, h2, h3, hd], img, rfl, ?_⟩
    by_cases hsq : img.width = img.height
    · refine ⟨hsq, ?_⟩
      by_cases hw : img.width = SOURCE_SIZE
      · exact Or.inl hw
      · have hnsq : ¬(img.width ≠ img.height) := not_not_intro hsq
        by_cases hlt : img.width < SOURCE_SIZE
        · simp [sizeChecks, hnsq, hw, hlt, isOk] at hsz
        · cases a with
          | false => simp [sizeChecks, hnsq, hw, hlt, isOk] at hsz
          | true =>
            refine Or.inr ⟨?_, rfl⟩
            omega
    · simp [sizeChecks, hsq, isOk] at hsz

/-- When the source decodes, `_prepare_source_image` performs exactly one
open (and no close: the image stays in memory for the resize loop). -/
theorem prepare_events (a : Bool) (f : SourceFile) (img : ImageInfo)
    (hd : f.decode = .ok img) :
    (prepareSourceImageTr a f).1 = [Event.openSource] := by
  simp only [prepareSourceImageTr, hd]
  split_ifs <;> rfl

/-- A successfully prepared image from a validated source is exactly
1024 x 1024 (either it already was, or it was downscaled to it). -/
theorem prepared_canonical (a : Bool) (f : SourceFile) (src : PImage)
    (hval : isOk (validateInputTr a f).2 = true)
    (hprep : (prepareSourceImageTr a f).2 = .ok src) :
    src.width = SOURCE_SIZE ∧ src.height = SOURCE_SIZE := by
  obtain ⟨-, img, hd, hsq, hpol⟩ := validate_ok_inv a f hval
  simp only [prepareSourceImageTr, hd] at hprep
  rcases hpol with hw | ⟨hgt, ha⟩
  · have hcond : ¬((convertRGBA (openImage img)).width ≠ SOURCE_SIZE ∧ a = true) := by
      rw [convertRGBA_width, openImage_width]
      simp [hw]
    rw [if_neg hcond] at hprep
    simp only [Except.ok.injEq] at hprep
    constructor
    · rw [← hprep, convertRGBA_width, openImage_width, hw]
    · rw [← hprep, convertRGBA_height, openImage_height, ← hsq, hw]
  · have hlt : SOURCE_SIZE < (convertRGBA (openImage img)).width := by
      rw [convertRGBA_width, openImage_width]; exact hgt
    have hcond : (convertRGBA (openImage img)).width ≠ SOURCE_SIZE ∧ a = true :=
      ⟨ne_of_gt hlt, ha⟩
    rw [if_pos hcond, if_pos hlt] at hprep
    simp only [Except.ok.injEq] at hprep
    rw [← hprep]
    exact ⟨rfl, rfl⟩

/-- The per-size loop: its events are one write per non-failing size, in the
declared order, followed by the close of the source image, and its count is
the number of non-failing sizes. -/
theorem genFold_spec (src : PImage) (sf : Nat → Bool) (l : List Nat)
    (acc : List Event × Nat) :
    (l.foldl (genStep src sf) acc).1
        = acc.1 ++ (l.filter (fun s => !sf s)).map
            (fun s => Event.writeFile (fname s) (FileContent.png (resizeFor src s)))
    ∧ (l.foldl (genStep src sf) acc).2
        = acc.2 + (l.filter (fun s => !sf s)).length := by
  induction l generalizing acc with
  | nil => simp
  | cons x xs ih =>
    simp only [List.foldl_cons, List.filter_cons]
    cases hx : sf x with
    | true =>
      simp only [genStep, hx, if_true, Bool.not_true, Bool.false_eq_true,
        if_false]
      exact ih acc
    | false =>
      simp only [genStep, hx, Bool.false_eq_true, if_false, Bool.not_false,
        if_true, List.map_cons, List.length_cons]
      obtain ⟨ih1, ih2⟩ :=
        ih (acc.1 ++ [Event.writeFile (fname x) (FileContent.png (resizeFor src x))],
            acc.2 + 1)
      constructor
      · rw [ih1]; simp
      · rw [ih2]; omega

/-- Events and count of `generateIconsLoopTr` in closed form. -/
theorem loop_spec (src : PImage) (sf : Nat → Bool) :
    (generateIconsLoopTr src sf).1
        = (ICON_SIZES.filter (fun s => !sf s)).map
            (fun s => Event.writeFile (fname s) (FileContent.png (resizeFor src s)))
          ++ [Event.closeSource]
    ∧ (generateIconsLoopTr src sf).2
        = (ICON_SIZES.filter (fun s => !sf s)).length := by
  obtain ⟨h1, h2⟩ := genFold_spec src sf ICON_SIZES ([], 0)
  constructor
  · show (ICON_SIZES.foldl (genStep src sf) ([], 0)).1 ++ [Event.closeSource] = _
    rw [h1]; simp
  · show (ICON_SIZES.foldl (genStep src sf) ([], 0)).2 = _
    rw [h2]; simp

/-- Shape of generate_icons after a successful prepare: the prepare open followed by
the loop events, and no exception. -/
theorem generateIconsTr_eq (a : Bool) (f : SourceFile) (sf : Nat → Bool)
    (src : PImage) (hprep : (prepareSourceImageTr a f).2 = .ok src) :
    generateIconsTr a f sf
      = ((prepareSourceImageTr a f).1 ++ (generateIconsLoopTr src sf).1,
         .ok (generateIconsLoopTr src sf).2) := by
  unfold generateIconsTr
  cases hp : prepareSourceImageTr a f with
  | mk evs r =>
    rw [hp] at hprep
    cases r with
    | error e => simp at hprep
    | ok s =>
      simp only [Except.ok.injEq] at hprep
      subst hprep
      rfl

/-- Shape of run with a succeeding manifest write: loop events then the
manifest write, returning the count of the loop. -/
theorem runTr_eq_ok (a : Bool) (f : SourceFile) (sf : Nat → Bool)
    (src : PImage) (hprep : (prepareSourceImageTr a f).2 = .ok src) :
    runTr a f sf none
      = ((prepareSourceImageTr a f).1 ++ (generateIconsLoopTr src sf).1
          ++ [Event.writeFile "Contents.json" FileContent.manifest],
         .ok (generateIconsLoopTr src sf).2) := by
  unfold runTr
  rw [generateIconsTr_eq a f sf src hprep]
  simp [generateContentsJsonTr, List.append_assoc]

/-- Shape of run with a failing manifest write: the loop events happen, then the
manifest exception propagates. -/
theorem runTr_eq_err (a : Bool) (f : SourceFile) (sf : Nat → Bool)
    (src : PImage) (e : PyError)
    (hprep : (prepareSourceImageTr a f).2 = .ok src) :
    runTr a f sf (some e)
      = ((prepareSourceImageTr a f).1 ++ (generateIconsLoopTr src sf).1,
         .error e) := by
  unfold runTr
  rw [generateIconsTr_eq a f sf src hprep]
  simp [generateContentsJsonTr]

/-- Shape of the constructor when validation succeeds and mkdir succeeds. -/
theorem initTr_ok (cwd : PathC) (od : Option String) (a : Bool)
    (f : SourceFile) (t : Nat) (hval : isOk (validateInputTr a f).2 = true) :
    initTr cwd od a f t true
      = ((validateInputTr a f).1
          ++ [Event.mkdirOut (resolveOutputPath cwd od f t)],
         .ok (resolveOutputPath cwd od f t)) := by
  unfold initTr
  cases hv : validateInputTr a f with
  | mk evs r =>
    rw [hv] at hval
    cases r with
    | error e => simp [isOk] at hval
    | ok u => simp [setOutputDirectoryTr]

/-- Shape of the constructor when validation succeeds but mkdir fails: the IOError is
raised with no directory event and no write event. -/
theorem initTr_mkdir_fail (cwd : PathC) (od : Option String) (a : Bool)
    (f : SourceFile) (t : Nat) (hval : isOk (validateInputTr a f).2 = true) :
    initTr cwd od a f t false
      = ((validateInputTr a f).1,
         .error (.ioError "Failed to create output directory")) := by
  unfold initTr
  cases hv : validateInputTr a f with
  | mk evs r =>
    rw [hv] at hval
    cases r with
    | error e => simp [isOk] at hval
    | ok u => simp [setOutputDirectoryTr]

/-- Shape of the constructor when validation fails: the error propagates
before the output directory is set. -/
theorem initTr_val_fail (cwd : PathC) (od : Option String) (a : Bool)
    (f : SourceFile) (t : Nat) (mk0 : Bool) (e : PyError)
    (hval : (validateInputTr a f).2 = .error e) :
    initTr cwd od a f t mk0 = ((validateInputTr a f).1, .error e) := by
  unfold initTr
  cases hv : validateInputTr a f with
  | mk evs r =>
    rw [hv] at hval
    cases r with
    | ok u => simp at hval
    | error e2 =>
      simp only [Except.error.injEq] at hval
      subst hval
      rfl

/-- Full successful-path shape of the pipeline (manifest write succeeding). -/
theorem pipelineTr_ok_shape (c : Cfg) (src : PImage)
    (hval : isOk (validateInputTr c.autoScale c.f).2 = true)
    (hmk : c.mkdirOk = true) (hman : c.manifestErr = none)
    (hprep : (prepareSourceImageTr c.autoScale c.f).2 = .ok src) :
    pipelineTr c
      = ((validateInputTr c.autoScale c.f).1
          ++ [Event.mkdirOut (resolveOutputPath c.cwd c.outputDir c.f c.t)]
          ++ (prepareSourceImageTr c.autoScale c.f).1
          ++ (generateIconsLoopTr src c.saveFails).1
          ++ [Event.writeFile "Contents.json" FileContent.manifest],
         .ok (generateIconsLoopTr src c.saveFails).2) := by
  unfold pipelineTr
  rw [hmk, hman, initTr_ok c.cwd c.outputDir c.autoScale c.f c.t hval,
    runTr_eq_ok c.autoScale c.f c.saveFails src hprep]
  simp [List.append_assoc]

/-- Pipeline shape when only the manifest write fails. -/
theorem pipelineTr_manifest_fail_shape (c : Cfg) (src : PImage) (e : PyError)
    (hval : isOk (validateInputTr c.autoScale c.f).2 = true)
    (hmk : c.mkdirOk = true) (hman : c.manifestErr = some e)
    (hprep : (prepareSourceImageTr c.autoScale c.f).2 = .ok src) :
    pipelineTr c
      = ((validateInputTr c.autoScale c.f).1
          ++ [Event.mkdirOut (resolveOutputPath c.cwd c.outputDir c.f c.t)]
          ++ (prepareSourceImageTr c.autoScale c.f).1
          ++ (generateIconsLoopTr src c.saveFails).1,
         .error e) := by
  unfold pipelineTr
  rw [hmk, hman, initTr_ok c.cwd c.outputDir c.autoScale c.f c.t hval,
    runTr_eq_err c.autoScale c.f c.saveFails src e hprep]
  simp [List.append_assoc]

/-- Pipeline shape when validation fails: nothing beyond the transient
validation events happens. -/
theorem pipelineTr_val_fail_shape (c : Cfg) (e : PyError)
    (hval : (validateInputTr c.autoScale c.f).2 = .error e) :
    pipelineTr c = ((validateInputTr c.autoScale c.f).1, .error e) := by
  unfold pipelineTr
  rw [initTr_val_fail c.cwd c.outputDir c.autoScale c.f c.t c.mkdirOk e hval]

/-- Pipeline shape when mkdir fails: the run aborts with the transient
validation events only. -/
theorem pipelineTr_mkdir_fail_shape (c : Cfg)
    (hval : isOk (validateInputTr c.autoScale c.f).2 = true)
    (hmk : c.mkdirOk = false) :
    pipelineTr c
      = ((validateInputTr c.autoScale c.f).1,
         .error (.ioError "Failed to create output directory")) := by
  unfold pipelineTr
  rw [hmk, initTr_mkdir_fail c.cwd c.outputDir c.autoScale c.f c.t hval]

/-- A successful prepare implies the source decoded. -/
theorem prepare_ok_decode (a : Bool) (f : SourceFile) (src : PImage)
    (hprep : (prepareSourceImageTr a f).2 = .ok src) :
    ∃ img, f.decode = .ok img := by
  cases hd : f.decode with
  | error m => simp [prepareSourceImageTr, hd] at hprep
  | ok img => exact ⟨img, rfl⟩

/-- Preparation performs either no event or a single open. -/
theorem prepare_events_cases (a : Bool) (f : SourceFile) :
    (prepareSourceImageTr a f).1 = []
    ∨ (prepareSourceImageTr a f).1 = [Event.openSource] := by
  cases hd : f.decode with
  | error m => left; simp [prepareSourceImageTr, hd]
  | ok img => right; exact prepare_events a f img hd

/-- Non-membership distributes over list append. -/
theorem not_mem_append {α : Type} {x : α} {A B : List α}
    (ha : x ∉ A) (hb : x ∉ B) : x ∉ A ++ B := by
  intro h
  rcases List.mem_append.mp h with h | h
  · exact ha h
  · exact hb h

/- ===== C2: per-size failures are non-fatal ===== -/

/-- C2: with any per-size failure pattern, `run` (with a succeeding manifest
write) still returns successfully, and the reported count is the number of
non-failing sizes out of the 13; in particular when exactly the size-60 save
fails, the run completes, writes the other 12 PNGs plus the manifest, and
reports 12. -/
theorem c2_per_size_failures_nonfatal (a : Bool) (f : SourceFile)
    (sf : Nat → Bool) (src : PImage)
    (hprep : (prepareSourceImageTr a f).2 = .ok src) :
    isOk (runTr a f sf none).2 = true
    ∧ (runTr a f sf none).2 = .ok (ICON_SIZES.filter (fun s => !sf s)).length
    ∧ ICON_SIZES.length = 13
    ∧ (sf = (fun s => decide (s = 60)) →
        (runTr a f sf none).2 = .ok 12
        ∧ (pngWrites (runTr a f sf none).1).length = 12
        ∧ Event.writeFile "Contents.json" FileContent.manifest
            ∈ (runTr a f sf none).1) := by
  obtain ⟨img, hd⟩ := prepare_ok_decode a f src hprep
  have hrun := runTr_eq_ok a f sf src hprep
  have hloop := loop_spec src sf
  refine ⟨by rw [hrun]; rfl, ?_, rfl, ?_⟩
  · rw [hrun, hloop.2]
  · intro hsf
    subst hsf
    refine ⟨by rw [hrun, hloop.2]; rfl, ?_, ?_⟩
    · rw [hrun, prepare_events a f img hd, hloop.1]
      simp [pngWrites, List.filterMap_append, ICON_SIZES, List.filterMap_cons]
    · rw [hrun]
      simp

/-- C2 witness: the size-60 failure scenario at a concrete valid source. -/
theorem c2_per_size_failures_nonfatal_witness :
    isOk (runTr false (squareFile 1024) (fun s => decide (s = 60)) none).2 = true
    ∧ (runTr false (squareFile 1024) (fun s => decide (s = 60)) none).2
        = .ok (ICON_SIZES.filter
            (fun s => !(fun s => decide (s = 60)) s)).length
    ∧ ICON_SIZES.length = 13
    ∧ ((fun s => decide (s = 60)) = (fun s : Nat => decide (s = 60)) →
        (runTr false (squareFile 1024) (fun s => decide (s = 60)) none).2 = .ok 12
        ∧ (pngWrites (runTr false (squareFile 1024)
            (fun s => decide (s = 60)) none).1).length = 12
        ∧ Event.writeFile "Contents.json" FileContent.manifest
            ∈ (runTr false (squareFile 1024) (fun s => decide (s = 60)) none).1) :=
  c2_per_size_failures_nonfatal false (squareFile 1024) (fun s => decide (s = 60))
    { width := 1024, height := 1024, mode := "RGBA", resampled := false } rfl

/- ===== C3: manifest write failure is fatal ===== -/

/-- C3: when the `Contents.json` write fails with exception `e`, the run
aborts with exactly that exception, `main` maps it to exit code 1, no
manifest file event happens, and yet the PNG of every non-failing size was already
written before the abort. -/
theorem c3_manifest_write_failure_fatal (c : Cfg) (src : PImage) (e : PyError)
    (hval : isOk (validateInputTr c.autoScale c.f).2 = true)
    (hmk : c.mkdirOk = true) (hman : c.manifestErr = some e)
    (hprep : (prepareSourceImageTr c.autoScale c.f).2 = .ok src) :
    (pipelineTr c).2 = .error e
    ∧ mainExit c = 1
    ∧ Event.writeFile "Contents.json" FileContent.manifest ∉ (pipelineTr c).1
    ∧ ∀ s ∈ ICON_SIZES, c.saveFails s = false →
        Event.writeFile (fname s) (FileContent.png (resizeFor src s))
          ∈ (pipelineTr c).1 := by
  have hshape := pipelineTr_manifest_fail_shape c src e hval hmk hman hprep
  have hloop := loop_spec src c.saveFails
  refine ⟨by rw [hshape], by unfold mainExit; rw [hshape], ?_, ?_⟩
  · rw [hshape]
    refine not_mem_append (not_mem_append (not_mem_append ?_ ?_) ?_) ?_
    · intro hm
      exact (validate_events_no_output c.autoScale c.f _ hm).2
        "Contents.json" FileContent.manifest rfl
    · intro hm; simp at hm
    · intro hm
      rcases prepare_events_cases c.autoScale c.f with hp | hp <;>
        rw [hp] at hm <;> simp at hm
    · rw [hloop.1]
      intro hm
      rcases List.mem_append.mp hm with hm | hm
      · obtain ⟨s, -, hs⟩ := List.mem_map.mp hm
        simp at hs
      · simp at hm
  · intro s hs hsf
    have hmem : Event.writeFile (fname s) (FileContent.png (resizeFor src s))
        ∈ (generateIconsLoopTr src c.saveFails).1 := by
      rw [hloop.1]
      refine List.mem_append.mpr (Or.inl ?_)
      exact List.mem_map.mpr ⟨s, List.mem_filter.mpr ⟨hs, by simp [hsf]⟩, rfl⟩
    rw [hshape]
    exact List.mem_append.mpr (Or.inr hmem)

/-- C3 witness: the fatal manifest failure at a concrete run in which all 13
PNGs were saved. -/
theorem c3_manifest_write_failure_fatal_witness :
    (pipelineTr cfgManifestFail).2 = .error (.ioError "No space left on device")
    ∧ mainExit cfgManifestFail = 1
    ∧ Event.writeFile "Contents.json" FileContent.manifest
        ∉ (pipelineTr cfgManifestFail).1
    ∧ ∀ s ∈ ICON_SIZES, cfgManifestFail.saveFails s = false →
        Event.writeFile (fname s) (FileContent.png (resizeFor srcGood s))
          ∈ (pipelineTr cfgManifestFail).1 :=
  c3_manifest_write_failure_fatal cfgManifestFail srcGood
    (.ioError "No space left on device") rfl rfl rfl rfl

/- ===== C6: no output side effect before/without validation and mkdir ===== -/

/-- Pipeline shape when `_prepare_source_image` raises (mkdir succeeded). -/
theorem pipelineTr_prepare_fail_shape (c : Cfg) (e : PyError)
    (hval : isOk (validateInputTr c.autoScale c.f).2 = true)
    (hmk : c.mkdirOk = true)
    (hprep : (prepareSourceImageTr c.autoScale c.f).2 = .error e) :
    pipelineTr c
      = ((validateInputTr c.autoScale c.f).1
          ++ [Event.mkdirOut (resolveOutputPath c.cwd c.outputDir c.f c.t)]
          ++ (prepareSourceImageTr c.autoScale c.f).1,
         .error e) := by
  unfold pipelineTr
  rw [hmk, initTr_ok c.cwd c.outputDir c.autoScale c.f c.t hval]
  unfold runTr generateIconsTr
  cases hp : prepareSourceImageTr c.autoScale c.f with
  | mk evs r =>
    rw [hp] at hprep
    cases r with
    | ok s => simp at hprep
    | error e2 =>
      simp only [Except.error.injEq] at hprep
      subst hprep
      simp [List.append_assoc]

/-- C6: a validation error aborts the pipeline with the transient validation
events as the entire trace — no directory creation and no write; a failing
output-directory creation aborts with no write performed; and any write that
does happen sits in a trace that begins with the (write-free) validation
events followed immediately by the creation of the output directory. -/
theorem c6_no_output_side_effect_before_validation (c : Cfg) :
    ((∃ e, (validateInputTr c.autoScale c.f).2 = .error e) →
      isOk (pipelineTr c).2 = false
      ∧ (pipelineTr c).1 = (validateInputTr c.autoScale c.f).1
      ∧ ∀ ev ∈ (pipelineTr c).1,
          (∀ p, ev ≠ Event.mkdirOut p) ∧ ∀ n c0, ev ≠ Event.writeFile n c0)
    ∧ (c.mkdirOk = false →
      isOk (pipelineTr c).2 = false
      ∧ ∀ n c0, Event.writeFile n c0 ∉ (pipelineTr c).1)
    ∧ ∀ n c0, Event.writeFile n c0 ∈ (pipelineTr c).1 →
        ∃ rest, (pipelineTr c).1
            = (validateInputTr c.autoScale c.f).1
              ++ Event.mkdirOut (resolveOutputPath c.cwd c.outputDir c.f c.t)
                :: rest
          ∧ ∀ n2 c2,
              Event.writeFile n2 c2 ∉ (validateInputTr c.autoScale c.f).1 := by
  have hnoval : ∀ n2 c2,
      Event.writeFile n2 c2 ∉ (validateInputTr c.autoScale c.f).1 := by
    intro n2 c2 hm
    exact (validate_events_no_output c.autoScale c.f _ hm).2 n2 c2 rfl
  refine ⟨?_, ?_, ?_⟩
  · rintro ⟨e, hval⟩
    have hs := pipelineTr_val_fail_shape c e hval
    exact ⟨by rw [hs]; rfl, by rw [hs], by rw [hs]; exact validate_events_no_output _ _⟩
  · intro hmk
    cases hv : (validateInputTr c.autoScale c.f).2 with
    | error e =>
      have hs := pipelineTr_val_fail_shape c e hv
      refine ⟨by rw [hs]; rfl, ?_⟩
      intro n c0 hm
      rw [hs] at hm
      exact hnoval n c0 hm
    | ok u =>
      have hval : isOk (validateInputTr c.autoScale c.f).2 = true := by
        rw [hv]; rfl
      have hs := pipelineTr_mkdir_fail_shape c hval hmk
      refine ⟨by rw [hs]; rfl, ?_⟩
      intro n c0 hm
      rw [hs] at hm
      exact hnoval n c0 hm
  · intro n c0 hm
    cases hv : (validateInputTr c.autoScale c.f).2 with
    | error e =>
      rw [pipelineTr_val_fail_shape c e hv] at hm
      exact (hnoval n c0 hm).elim
    | ok u =>
      have hval : isOk (validateInputTr c.autoScale c.f).2 = true := by
        rw [hv]; rfl
      cases hmk : c.mkdirOk with
      | false =>
        rw [pipelineTr_mkdir_fail_shape c hval hmk] at hm
        exact (hnoval n c0 hm).elim
      | true =>
        cases hp : (prepareSourceImageTr c.autoScale c.f).2 with
        | error e =>
          have hs := pipelineTr_prepare_fail_shape c e hval hmk hp
          refine ⟨(prepareSourceImageTr c.autoScale c.f).1, ?_, hnoval⟩
          rw [hs]
          simp [List.append_assoc]
        | ok src =>
          cases hme : c.manifestErr with
          | none =>
            have hs := pipelineTr_ok_shape c src hval hmk hme hp
            refine ⟨(prepareSourceImageTr c.autoScale c.f).1
              ++ ((generateIconsLoopTr src c.saveFails).1
                ++ [Event.writeFile "Contents.json" FileContent.manifest]),
              ?_, hnoval⟩
            rw [hs]
            simp [List.append_assoc]
          | some e =>
            have hs := pipelineTr_manifest_fail_shape c src e hval hmk hme hp
            refine ⟨(prepareSourceImageTr c.autoScale c.f).1
              ++ (generateIconsLoopTr src c.saveFails).1, ?_, hnoval⟩
            rw [hs]
            simp [List.append_assoc]

/-- C6 witness: at the undersized-source configuration, validation fails and
the whole pipeline performs no directory creation and no write. -/
theorem c6_no_output_side_effect_before_validation_witness :
    isOk (pipelineTr cfgBad).2 = false
    ∧ (pipelineTr cfgBad).1 = (validateInputTr cfgBad.autoScale cfgBad.f).1
    ∧ ∀ ev ∈ (pipelineTr cfgBad).1,
        (∀ p, ev ≠ Event.mkdirOut p) ∧ ∀ n c0, ev ≠ Event.writeFile n c0 :=
  (c6_no_output_side_effect_before_validation cfgBad).1
    ⟨.valueError (msgOpenFailure (msgTooSmall 512 512)), rfl⟩

/-- A filterMap with an always-some function is a map. -/
theorem filterMap_some_eq_map {α β : Type} (f : α → β) (l : List α) :
    l.filterMap (fun x => some (f x)) = l.map f := by
  induction l with
  | nil => rfl
  | cons x xs ih => simp [List.filterMap_cons, ih]

/- ===== C7: the output set of a fully successful run ===== -/

/-- C7: a fully successful run writes exactly one PNG per size of the fixed
13-element list, in the declared order, each named with an underscore, the
size and the .png extension, each exactly
size x size; the 1024 entry is the prepared in-memory image written directly
(`resizeFor src 1024 = src`, no resampling call); and exactly one
`Contents.json` is written. -/
theorem c7_output_set (c : Cfg) (src : PImage)
    (hval : isOk (validateInputTr c.autoScale c.f).2 = true)
    (hmk : c.mkdirOk = true) (hman : c.manifestErr = none)
    (hprep : (prepareSourceImageTr c.autoScale c.f).2 = .ok src)
    (hsf : ∀ s, c.saveFails s = false) :
    pngWrites (pipelineTr c).1
        = ICON_SIZES.map (fun s => (fname s, resizeFor src s))
    ∧ (pngWrites (pipelineTr c).1).length = 13
    ∧ ICON_SIZES = [20, 29, 40, 58, 60, 76, 80, 87, 120, 152, 167, 180, 1024]
    ∧ (∀ s ∈ ICON_SIZES,
        (resizeFor src s).width = s ∧ (resizeFor src s).height = s)
    ∧ resizeFor src SOURCE_SIZE = src
    ∧ (pipelineTr c).1.count
        (Event.writeFile "Contents.json" FileContent.manifest) = 1 := by
  obtain ⟨img, hd⟩ := prepare_ok_decode c.autoScale c.f src hprep
  have hdim := prepared_canonical c.autoScale c.f src hval hprep
  have hshape := pipelineTr_ok_shape c src hval hmk hman hprep
  have hloop := loop_spec src c.saveFails
  have hfilter : ICON_SIZES.filter (fun s => !c.saveFails s) = ICON_SIZES :=
    List.filter_eq_self.mpr (fun s _ => by simp [hsf])
  have hvev := (validate_ok_inv c.autoScale c.f hval).1
  have hpev := prepare_events c.autoScale c.f img hd
  have hmap : pngWrites (pipelineTr c).1
      = ICON_SIZES.map (fun s => (fname s, resizeFor src s)) := by
    rw [hshape, hvev, hpev, hloop.1, hfilter]
    simp only [pngWrites, List.filterMap_append, List.filterMap_map,
      List.filterMap_cons, List.filterMap_nil, List.nil_append,
      List.append_nil, List.append_assoc]
    exact filterMap_some_eq_map (fun s => (fname s, resizeFor src s)) ICON_SIZES
  refine ⟨hmap, by rw [hmap]; rfl, rfl, ?_, by simp [resizeFor], ?_⟩
  · intro s hs
    by_cases h1024 : s = SOURCE_SIZE
    · subst h1024
      simp [resizeFor, hdim.1, hdim.2]
    · simp [resizeFor, h1024, pilResize]
  · rw [hshape, hvev, hpev, hloop.1, hfilter]
    simp only [List.count_append, List.count_cons, List.count_singleton,
      List.count_nil]
    have hz : (ICON_SIZES.map
        (fun s => Event.writeFile (fname s) (FileContent.png (resizeFor src s)))).count
          (Event.writeFile "Contents.json" FileContent.manifest) = 0 := by
      rw [List.count_eq_zero]
      intro hmem
      obtain ⟨s, -, hs⟩ := List.mem_map.mp hmem
      simp at hs
    rw [hz]
    rfl

/-- C7 witness: the full output set at the concrete all-success run. -/
theorem c7_output_set_witness :
    pngWrites (pipelineTr cfgGood).1
        = ICON_SIZES.map (fun s => (fname s, resizeFor srcGood s))
    ∧ (pngWrites (pipelineTr cfgGood).1).length = 13
    ∧ ICON_SIZES = [20, 29, 40, 58, 60, 76, 80, 87, 120, 152, 167, 180, 1024]
    ∧ (∀ s ∈ ICON_SIZES,
        (resizeFor srcGood s).width = s ∧ (resizeFor srcGood s).height = s)
    ∧ resizeFor srcGood SOURCE_SIZE = srcGood
    ∧ (pipelineTr cfgGood).1.count
        (Event.writeFile "Contents.json" FileContent.manifest) = 1 :=
  c7_output_set cfgGood srcGood rfl rfl rfl rfl (fun _ => rfl)

/- ===== C8: how often the source is read, and when it is released ===== -/

/-- C8 counterexample: in a fully successful concrete run the source image is
opened twice — once transiently by the with-block of validation and once by
the prepare step — not exactly once. -/
theorem c8_counterexample_source_opened_twice :
    isOk (pipelineTr cfgGood).2 = true
    ∧ (pipelineTr cfgGood).1.count Event.openSource = 2 := by
  constructor
  · rfl
  · rfl

/-- C8 amended: every successful run opens the source exactly twice: the
validation open is transient (closed before validation returns), and the
generation open is held through the whole resize loop — the generation-pass
events are the open, then only writes, then the single close after all sizes
were handled. -/
theorem c8_two_reads_generation_copy_held (c : Cfg) (src : PImage)
    (hval : isOk (validateInputTr c.autoScale c.f).2 = true)
    (hmk : c.mkdirOk = true)
    (hprep : (prepareSourceImageTr c.autoScale c.f).2 = .ok src) :
    (pipelineTr c).1.count Event.openSource = 2
    ∧ (validateInputTr c.autoScale c.f).1
        = [Event.openSource, Event.closeSource]
    ∧ ∃ writes, (prepareSourceImageTr c.autoScale c.f).1
          ++ (generateIconsLoopTr src c.saveFails).1
        = Event.openSource :: writes ++ [Event.closeSource]
      ∧ ∀ ev ∈ writes, ∃ n c0, ev = Event.writeFile n c0 := by
  obtain ⟨img, hd⟩ := prepare_ok_decode c.autoScale c.f src hprep
  have hvev := (validate_ok_inv c.autoScale c.f hval).1
  have hpev := prepare_events c.autoScale c.f img hd
  have hloop := loop_spec src c.saveFails
  have hzmap : ∀ sf0 : Nat → Bool, (ICON_SIZES.filter (fun s => !sf0 s) |>.map
      (fun s => Event.writeFile (fname s) (FileContent.png (resizeFor src s)))).count
        Event.openSource = 0 := by
    intro sf0
    rw [List.count_eq_zero]
    intro hmem
    obtain ⟨s, -, hs⟩ := List.mem_map.mp hmem
    cases hs
  refine ⟨?_, hvev, ?_⟩
  · cases hme : c.manifestErr with
    | none =>
      rw [pipelineTr_ok_shape c src hval hmk hme hprep, hvev, hpev, hloop.1]
      simp only [List.count_append, List.count_cons, List.count_singleton,
        List.count_nil, hzmap]
      rfl
    | some e =>
      rw [pipelineTr_manifest_fail_shape c src e hval hmk hme hprep, hvev,
        hpev, hloop.1]
      simp only [List.count_append, List.count_cons, List.count_singleton,
        List.count_nil, hzmap]
      rfl
  · refine ⟨(ICON_SIZES.filter (fun s => !c.saveFails s)).map
      (fun s => Event.writeFile (fname s) (FileContent.png (resizeFor src s))),
      ?_, ?_⟩
    · rw [hpev, hloop.1]
      rfl
    · intro ev hmem
      obtain ⟨s, -, hs⟩ := List.mem_map.mp hmem
      exact ⟨fname s, FileContent.png (resizeFor src s), hs.symm⟩

/-- C8 amended witness: the two opens and the held generation copy at the
concrete all-success run. -/
theorem c8_two_reads_generation_copy_held_witness :
    (pipelineTr cfgGood).1.count Event.openSource = 2
    ∧ (validateInputTr cfgGood.autoScale cfgGood.f).1
        = [Event.openSource, Event.closeSource]
    ∧ ∃ writes, (prepareSourceImageTr cfgGood.autoScale cfgGood.f).1
          ++ (generateIconsLoopTr srcGood cfgGood.saveFails).1
        = Event.openSource :: writes ++ [Event.closeSource]
      ∧ ∀ ev ∈ writes, ∃ n c0, ev = Event.writeFile n c0 :=
  c8_two_reads_generation_copy_held cfgGood srcGood rfl rfl rfl

/- ===== C9: rerunning into the same directory ===== -/

/-- Keys after a write: unchanged when the name is present, appended when
absent. -/
theorem keys_writeFs (fs : FS) (m : String) (c : FileContent) :
    (writeFs fs m c).map Prod.fst
      = if m ∈ fs.map Prod.fst then fs.map Prod.fst
        else fs.map Prod.fst ++ [m] := by
  induction fs with
  | nil => simp [writeFs]
  | cons p rest ih =>
    by_cases hp : p.1 = m
    · simp [writeFs, hp]
    · have hp2 : ¬(m = p.1) := fun h => hp h.symm
      by_cases hm : m ∈ rest.map Prod.fst <;>
        simp [writeFs, hp, hp2, hm, ih]

/-- Lookup after a write: the written name now holds the written content;
other names are untouched. -/
theorem lookupFs_writeFs (fs : FS) (m n : String) (c : FileContent) :
    lookupFs (writeFs fs m c) n = if m = n then some c else lookupFs fs n := by
  induction fs with
  | nil => simp [writeFs, lookupFs]
  | cons p rest ih =>
    by_cases hp : p.1 = m
    · by_cases hmn : m = n <;> simp [writeFs, lookupFs, hp, hmn]
    · by_cases hmn : m = n
      · subst hmn
        simp [writeFs, lookupFs, hp, ih]
      · simp [writeFs, lookupFs, hp, hmn, ih]

/-- A name a trace never writes has no last write. -/
theorem lastWrite_eq_none (evs : List Event) (n : String)
    (h : n ∉ writeNames evs) : lastWrite evs n = none := by
  induction evs with
  | nil => rfl
  | cons e evs ih =>
    cases e with
    | writeFile m c =>
      have hmem : n ∉ writeNames evs ∧ ¬(m = n) := by
        constructor
        · intro h2
          apply h
          rw [show writeNames (Event.writeFile m c :: evs)
              = m :: writeNames evs from rfl]
          exact List.mem_cons_of_mem m h2
        · intro h2
          apply h
          rw [show writeNames (Event.writeFile m c :: evs)
              = m :: writeNames evs from rfl, h2]
          exact List.mem_cons_self n (writeNames evs)
      simp [lastWrite, ih hmem.1, hmem.2]
    | openSource =>
      have h2 : n ∉ writeNames evs := by
        intro h3; exact h (by simpa [writeNames, List.filterMap_cons] using h3)
      simp [lastWrite, ih h2]
    | closeSource =>
      have h2 : n ∉ writeNames evs := by
        intro h3; exact h (by simpa [writeNames, List.filterMap_cons] using h3)
      simp [lastWrite, ih h2]
    | mkdirOut p =>
      have h2 : n ∉ writeNames evs := by
        intro h3; exact h (by simpa [writeNames, List.filterMap_cons] using h3)
      simp [lastWrite, ih h2]

/-- A name a trace does write has a last write. -/
theorem lastWrite_of_mem (evs : List Event) (n : String)
    (h : n ∈ writeNames evs) : ∃ c0, lastWrite evs n = some c0 := by
  induction evs with
  | nil => cases h
  | cons e evs ih =>
    cases e with
    | writeFile m c =>
      rw [show writeNames (Event.writeFile m c :: evs) = m :: writeNames evs
        from rfl] at h
      cases hl : lastWrite evs n with
      | some c0 => exact ⟨c0, by simp [lastWrite, hl]⟩
      | none =>
        rcases List.mem_cons.mp h with h | h
        · exact ⟨c, by simp [lastWrite, hl, h.symm]⟩
        · obtain ⟨c0, hc⟩ := ih h
          rw [hc] at hl
          cases hl
    | openSource =>
      obtain ⟨c0, hc⟩ := ih (by simpa [writeNames, List.filterMap_cons] using h)
      exact ⟨c0, by simp [lastWrite, hc]⟩
    | closeSource =>
      obtain ⟨c0, hc⟩ := ih (by simpa [writeNames, List.filterMap_cons] using h)
      exact ⟨c0, by simp [lastWrite, hc]⟩
    | mkdirOut p =>
      obtain ⟨c0, hc⟩ := ih (by simpa [writeNames, List.filterMap_cons] using h)
      exact ⟨c0, by simp [lastWrite, hc]⟩

/-- Lookup after replaying a trace: the last write wins, otherwise the
original content shows through. -/
theorem lookupFs_applyEvents (evs : List Event) (fs : FS) (n : String) :
    lookupFs (applyEvents fs evs) n
      = match lastWrite evs n with
        | some c => some c
        | none => lookupFs fs n := by
  induction evs generalizing fs with
  | nil => rfl
  | cons e evs ih =>
    show lookupFs (applyEvents (applyEvent fs e) evs) n = _
    rw [ih (applyEvent fs e)]
    cases hl : lastWrite evs n with
    | some c => simp [lastWrite, hl]
    | none =>
      cases e with
      | writeFile m c =>
        simp only [lastWrite, hl, applyEvent, lookupFs_writeFs]
        by_cases hmn : m = n <;> simp [hmn]
      | openSource => simp [lastWrite, hl, applyEvent]
      | closeSource => simp [lastWrite, hl, applyEvent]
      | mkdirOut p => simp [lastWrite, hl, applyEvent]

/-- Multiplicity of a name after replaying a trace: a previously absent
written name appears exactly once; every other multiplicity is unchanged. -/
theorem count_keys_applyEvents (evs : List Event) (fs : FS) (n : String) :
    ((applyEvents fs evs).map Prod.fst).count n
      = if n ∈ writeNames evs ∧ n ∉ fs.map Prod.fst then 1
        else (fs.map Prod.fst).count n := by
  induction evs generalizing fs with
  | nil => simp [writeNames, applyEvents]
  | cons e evs ih =>
    show ((applyEvents (applyEvent fs e) evs).map Prod.fst).count n = _
    rw [ih (applyEvent fs e)]
    cases e with
    | openSource => simp [applyEvent, writeNames, List.filterMap_cons]
    | closeSource => simp [applyEvent, writeNames, List.filterMap_cons]
    | mkdirOut p => simp [applyEvent, writeNames, List.filterMap_cons]
    | writeFile m c =>
      rw [show writeNames (Event.writeFile m c :: evs) = m :: writeNames evs
        from rfl]
      simp only [applyEvent]
      rw [keys_writeFs]
      by_cases hm : m ∈ fs.map Prod.fst
      · rw [if_pos hm]
        by_cases hn : n ∈ fs.map Prod.fst
        · simp [hn]
        · have hnm : ¬(n = m) := fun h => hn (h ▸ hm)
          simp [hn, hnm, List.mem_cons]
      · rw [if_neg hm]
        by_cases hnm : n = m
        · subst hnm
          have hcount : (fs.map Prod.fst).count n = 0 :=
            List.count_eq_zero.mpr hm
          simp [List.mem_append, hm, hcount, List.count_append]
        · by_cases hn : n ∈ fs.map Prod.fst <;>
            simp [List.mem_append, hnm, List.count_append, List.mem_cons, hn]

/-- A written name is present in the directory after the run. -/
theorem mem_keys_applyEvents_of_written (evs : List Event) (fs : FS)
    (n : String) (h : n ∈ writeNames evs) :
    n ∈ (applyEvents fs evs).map Prod.fst := by
  have hc := count_keys_applyEvents evs fs n
  by_cases hn : n ∈ fs.map Prod.fst
  · rw [if_neg (by simp [hn])] at hc
    rw [← List.count_pos_iff] at hn ⊢
    omega
  · rw [if_pos ⟨h, hn⟩] at hc
    rw [← List.count_pos_iff]
    omega

/-- Replaying the same trace a second time changes the content of no name. -/
theorem applyEvents_twice_lookup (evs : List Event) (fs : FS) (n : String) :
    lookupFs (applyEvents (applyEvents fs evs) evs) n
      = lookupFs (applyEvents fs evs) n := by
  rw [lookupFs_applyEvents, lookupFs_applyEvents]
  cases hl : lastWrite evs n <;> simp

/-- Replaying the same trace a second time changes the multiplicity of no name:
nothing gets duplicated. -/
theorem applyEvents_twice_count (evs : List Event) (fs : FS) (n : String) :
    (((applyEvents (applyEvents fs evs) evs)).map Prod.fst).count n
      = ((applyEvents fs evs).map Prod.fst).count n := by
  have h1 := count_keys_applyEvents evs (applyEvents fs evs) n
  rw [h1]
  by_cases hw : n ∈ writeNames evs
  · rw [if_neg (by simp [mem_keys_applyEvents_of_written evs fs n hw])]
  · rw [if_neg (by simp [hw])]

/-- C9: under the success conditions with an explicit output directory, the
run succeeds; names it never writes keep their content and multiplicity; a
written name afterwards holds the last content the run wrote; and replaying
the identical run over the resulting directory changes neither any content
nor any multiplicity — prior generated files are overwritten in place, and
nothing, related or not, is duplicated. -/
theorem c9_rerun_overwrites_without_duplication (c : Cfg) (fs : FS)
    (d : String) (_hdir : c.outputDir = some d)
    (hval : isOk (validateInputTr c.autoScale c.f).2 = true)
    (hmk : c.mkdirOk = true) (hman : c.manifestErr = none)
    (hsrc : ∃ src, (prepareSourceImageTr c.autoScale c.f).2 = .ok src) :
    isOk (pipelineTr c).2 = true
    ∧ (∀ n, n ∉ writeNames (pipelineTr c).1 →
        lookupFs (applyEvents fs (pipelineTr c).1) n = lookupFs fs n
        ∧ ((applyEvents fs (pipelineTr c).1).map Prod.fst).count n
            = (fs.map Prod.fst).count n)
    ∧ (∀ n, n ∈ writeNames (pipelineTr c).1 →
        lookupFs (applyEvents fs (pipelineTr c).1) n
          = lastWrite (pipelineTr c).1 n)
    ∧ (∀ n, lookupFs (applyEvents (applyEvents fs (pipelineTr c).1)
            (pipelineTr c).1) n
          = lookupFs (applyEvents fs (pipelineTr c).1) n)
    ∧ (∀ n, ((applyEvents (applyEvents fs (pipelineTr c).1)
            (pipelineTr c).1).map Prod.fst).count n
          = ((applyEvents fs (pipelineTr c).1).map Prod.fst).count n) := by
  obtain ⟨src, hprep⟩ := hsrc
  refine ⟨by rw [pipelineTr_ok_shape c src hval hmk hman hprep]; rfl,
    ?_, ?_,
    fun n => applyEvents_twice_lookup _ _ _,
    fun n => applyEvents_twice_count _ _ _⟩
  · intro n h
    constructor
    · rw [lookupFs_applyEvents, lastWrite_eq_none _ _ h]
    · rw [count_keys_applyEvents, if_neg (by simp [h])]
  · intro n h
    obtain ⟨c0, hc⟩ := lastWrite_of_mem _ _ h
    rw [lookupFs_applyEvents, hc]

/-- C9 witness: the concrete all-success run with an explicit output
directory over a directory holding one unrelated file. -/
theorem c9_rerun_overwrites_without_duplication_witness :
    isOk (pipelineTr cfgGood).2 = true
    ∧ (∀ n, n ∉ writeNames (pipelineTr cfgGood).1 →
        lookupFs (applyEvents [("keep.txt", FileContent.blob "notes")]
            (pipelineTr cfgGood).1) n
          = lookupFs [("keep.txt", FileContent.blob "notes")] n
        ∧ ((applyEvents [("keep.txt", FileContent.blob "notes")]
            (pipelineTr cfgGood).1).map Prod.fst).count n
            = ([("keep.txt", FileContent.blob "notes")].map Prod.fst).count n)
    ∧ (∀ n, n ∈ writeNames (pipelineTr cfgGood).1 →
        lookupFs (applyEvents [("keep.txt", FileContent.blob "notes")]
            (pipelineTr cfgGood).1) n
          = lastWrite (pipelineTr cfgGood).1 n)
    ∧ (∀ n, lookupFs (applyEvents (applyEvents
            [("keep.txt", FileContent.blob "notes")] (pipelineTr cfgGood).1)
            (pipelineTr cfgGood).1) n
          = lookupFs (applyEvents [("keep.txt", FileContent.blob "notes")]
            (pipelineTr cfgGood).1) n)
    ∧ (∀ n, ((applyEvents (applyEvents
            [("keep.txt", FileContent.blob "notes")] (pipelineTr cfgGood).1)
            (pipelineTr cfgGood).1).map Prod.fst).count n
          = ((applyEvents [("keep.txt", FileContent.blob "notes")]
            (pipelineTr cfgGood).1).map Prod.fst).count n) :=
  c9_rerun_overwrites_without_duplication cfgGood
    [("keep.txt", FileContent.blob "notes")] "MyIcon.appiconset"
    rfl rfl rfl rfl ⟨srcGood, rfl⟩

end BatchResizeIcon
